import Mathlib

/-!
Verification development for the CBS server billing repository
(khanlab/cbs-server-billing).

The Python sources are shallowly embedded:
* calendar dates become a `Date` structure ordered lexicographically,
  mirroring Python `datetime.date` comparison on valid dates;
* `pandas` timestamps are modelled by their date component (the code only
  ever compares and sorts by `.dt.date` / `.date()` for the behaviour
  studied here);
* money and storage amounts become `ℚ` (the Python floats involved are
  small dyadic rationals, so the arithmetic is exact);
* Python exceptions become `Except`/`Option` results;
* `frozenset`s of updates become lists; Python `max(..., key=...)`
  (first maximal element wins) becomes `foldMax`.
-/

/-- Calendar date, as in Python `datetime.date`. -/
structure Date where
  year : Int
  month : Int
  day : Int
deriving DecidableEq, Repr

/-- Python date comparison `a <= b` (lexicographic on year, month, day). -/
def Date.ble (a b : Date) : Bool :=
  (a.year < b.year) ||
    (a.year == b.year &&
      ((a.month < b.month) || (a.month == b.month && a.day ≤ b.day)))

/-- Python date comparison `a < b`. -/
def Date.blt (a b : Date) : Bool :=
  !(Date.ble b a)

/-- Leap-year test, as in Python `calendar.isleap`. -/
def isLeapYear (y : Int) : Bool :=
  (y % 4 == 0 && y % 100 != 0) || (y % 400 == 0)

/-- Number of days in a month, as in Python `calendar.monthrange(y, m)[-1]`. -/
def daysInMonth (y m : Int) : Int :=
  if m = 2 then (if isLeapYear y then 29 else 28)
  else if m = 4 ∨ m = 6 ∨ m = 9 ∨ m = 11 then 30
  else 31

/-- Embedding of `cbsserverbilling.dateutils.get_end_of_period` (the
`cbsserverbilling.policy` copy is behaviourally identical: `num_months > 11`
iff `num_months >= 12` on integers).  The year carry for `num_months ≥ 12`
is computed into `yc` but, exactly as in the source, the second and third
branches use `start_year` rather than the carried year. -/
def get_end_of_period (start_year start_month num_months : Int) : Date :=
  let yc : Int := if num_months ≥ 12 then start_year + num_months / 12 else start_year
  let nm : Int := if num_months ≥ 12 then num_months % 12 else num_months
  let ym : Int × Int :=
    if nm = 0 ∧ start_month = 1 then (yc - 1, 12)
    else if start_month ≤ 13 - nm then (start_year, start_month + (nm - 1))
    else (start_year + 1, start_month - (13 - nm))
  ⟨ym.1, ym.2, daysInMonth ym.1 ym.2⟩

/-- Abstract storage record interface, as consumed by
`BillingPolicy` (`cbsserverbilling.records.StorageRecord`). -/
structure StorageRecord where
  get_storage_start : String → Date
  get_pi_account_close_date : String → Option Date
  get_storage_amount : String → Date → ℚ

/-- Storage price in dollars/TB/year (`BillingPolicy.STORAGE_PRICE`). -/
def STORAGE_PRICE : ℚ := 50

/-- First power user price in dollars/year. -/
def FIRST_POWER_USER_PRICE : ℚ := 1000

/-- Additional power user price in dollars/year. -/
def ADDITIONAL_POWER_USER_PRICE : ℚ := 500

/-- Billing period length in months (`BillingPolicy.PERIOD_LENGTH`). -/
def PERIOD_LENGTH : Int := 3

/-- Minimum billable usage in months (`BillingPolicy.MIN_BILL_USAGE`). -/
def MIN_BILL_USAGE : Int := 2

/-- Embedding of `BillingPolicy.is_billable_pi`. -/
def is_billable_pi (storage_record : StorageRecord) (pi_last_name : String)
    (start_date : Date) : Bool :=
  let end_date := get_end_of_period start_date.year start_date.month PERIOD_LENGTH
  if Date.blt end_date (storage_record.get_storage_start pi_last_name) then false
  else
    let cutoff_date := get_end_of_period start_date.year start_date.month MIN_BILL_USAGE
    match storage_record.get_pi_account_close_date pi_last_name with
    | none => true
    | some close => Date.blt cutoff_date close

/-- Embedding of `BillingPolicy.get_quarterly_storage_amount`. -/
def get_quarterly_storage_amount (storage_record : StorageRecord)
    (pi_last_name : String) (start_date : Date) : ℚ :=
  let cutoff_date :=
    get_end_of_period start_date.year start_date.month (PERIOD_LENGTH - MIN_BILL_USAGE)
  if Date.blt cutoff_date (storage_record.get_storage_start pi_last_name) then 0
  else
    min (storage_record.get_storage_amount pi_last_name cutoff_date)
      (storage_record.get_storage_amount pi_last_name
        (get_end_of_period start_date.year start_date.month MIN_BILL_USAGE))

/-- Embedding of `BillingPolicy.get_quarterly_storage_price`. -/
def get_quarterly_storage_price (storage_record : StorageRecord)
    (pi_last_name : String) (start_date : Date) : ℚ :=
  get_quarterly_storage_amount storage_record pi_last_name start_date
    * STORAGE_PRICE * (1 / 4)

/-- Storage record used for the concrete scenario in claim C2: 10 TB as of
the month-1 cutoff (2020-11-30) and 15 TB as of the month-2 cutoff
(2020-12-31) of the quarter starting 2020-11-01. -/
def c2ScenarioRecord : StorageRecord where
  get_storage_start := fun _ => ⟨2020, 1, 1⟩
  get_pi_account_close_date := fun _ => none
  get_storage_amount := fun _ d => if Date.ble d ⟨2020, 11, 30⟩ then 10 else 15

/-- Storage record closed exactly on the month-2 cutoff (2020-12-31) of the
quarter starting 2020-11-01, for the C3 boundary check. -/
def c3ClosedOnCutoffRecord : StorageRecord where
  get_storage_start := fun _ => ⟨2020, 1, 1⟩
  get_pi_account_close_date := fun _ => some ⟨2020, 12, 31⟩
  get_storage_amount := fun _ _ => 0

/-- Storage record closed one day after the month-2 cutoff (2021-01-01) of
the quarter starting 2020-11-01, for the C3 boundary check. -/
def c3ClosedAfterCutoffRecord : StorageRecord where
  get_storage_start := fun _ => ⟨2020, 1, 1⟩
  get_pi_account_close_date := fun _ => some ⟨2021, 1, 1⟩
  get_storage_amount := fun _ _ => 0

/-- C7: `get_end_of_period(2020, 1, 13)` returns January 31, 2020 instead of
the last day of the month 12 months after January 2020 (January 31, 2021):
the whole-year carry computed for `num_months ≥ 12` is discarded because the
later branches overwrite the year with `start_year` (resp. `start_year + 1`). -/
theorem get_end_of_period_drops_year_carry :
    get_end_of_period 2020 1 13 = ⟨2020, 1, 31⟩ ∧
      (⟨2020, 1, 31⟩ : Date) ≠ ⟨2021, 1, 31⟩ := by
  decide

/-- C3: `is_billable_pi` returns false exactly when the storage start is
after the quarter's end date or the close date is at or before the month-2
cutoff, and true otherwise (never-closed projects included); moreover, for
the quarter starting 2020-11-01, a project closed exactly on the month-2
cutoff (2020-12-31) is not billable while one closed on 2021-01-01 is. -/
theorem is_billable_pi_characterization :
    (∀ (r : StorageRecord) (pi : String) (sd : Date),
      is_billable_pi r pi sd = false ↔
        (Date.blt (get_end_of_period sd.year sd.month PERIOD_LENGTH)
            (r.get_storage_start pi) = true ∨
          ∃ c, r.get_pi_account_close_date pi = some c ∧
            Date.ble c (get_end_of_period sd.year sd.month MIN_BILL_USAGE) = true)) ∧
    is_billable_pi c3ClosedOnCutoffRecord "PI" ⟨2020, 11, 1⟩ = false ∧
    is_billable_pi c3ClosedAfterCutoffRecord "PI" ⟨2020, 11, 1⟩ = true := by
  refine ⟨fun r pi sd => ?_, by decide, by decide⟩
  unfold is_billable_pi
  cases hs : Date.blt (get_end_of_period sd.year sd.month PERIOD_LENGTH)
      (r.get_storage_start pi) with
  | true => simp [hs]
  | false =>
    simp only [hs, if_false, Bool.false_eq_true, false_or]
    cases hc : r.get_pi_account_close_date pi with
    | none => simp
    | some c =>
      simp only [Option.some.injEq]
      constructor
      · intro h
        refine ⟨c, rfl, ?_⟩
        have := h
        by_contra hb
        simp only [Date.blt] at this
        rw [Bool.not_eq_true] at hb
        rw [hb] at this
        simp at this
      · rintro ⟨c2, hc2, hble⟩
        cases hc2
        simp [Date.blt, hble]

/-- C2: the quarterly storage amount is zero when the storage start is after
the month-1 cutoff and otherwise the minimum of the storage amounts sampled
at the month-1 and month-2 cutoffs; the quarterly storage price is that
amount times the per-TB-per-year price times one quarter; and a project with
10 TB at the month-1 cutoff and 15 TB at the month-2 cutoff of the quarter
starting 2020-11-01 is billed 10 × 50 × 0.25 = 125 dollars. -/
theorem quarterly_storage_amount_and_price :
    (∀ (r : StorageRecord) (pi : String) (sd : Date),
      get_quarterly_storage_amount r pi sd =
        (if Date.blt (get_end_of_period sd.year sd.month 1) (r.get_storage_start pi)
          then 0
          else
            min (r.get_storage_amount pi (get_end_of_period sd.year sd.month 1))
              (r.get_storage_amount pi (get_end_of_period sd.year sd.month 2))) ∧
      get_quarterly_storage_price r pi sd =
        get_quarterly_storage_amount r pi sd * 50 * (1 / 4)) ∧
    get_quarterly_storage_price c2ScenarioRecord "PI" ⟨2020, 11, 1⟩ = 125 := by
  refine ⟨fun r pi sd => ⟨rfl, rfl⟩, ?_⟩
  show (if Date.blt (get_end_of_period 2020 11 (PERIOD_LENGTH - MIN_BILL_USAGE))
      (c2ScenarioRecord.get_storage_start "PI") then (0:ℚ)
    else
      min (c2ScenarioRecord.get_storage_amount "PI"
          (get_end_of_period 2020 11 (PERIOD_LENGTH - MIN_BILL_USAGE)))
        (c2ScenarioRecord.get_storage_amount "PI"
          (get_end_of_period 2020 11 MIN_BILL_USAGE))) * STORAGE_PRICE * (1/4) = 125
  norm_num [c2ScenarioRecord, get_end_of_period, PERIOD_LENGTH, MIN_BILL_USAGE,
    STORAGE_PRICE, Date.blt, Date.ble, daysInMonth, isLeapYear]

/-- One entry of `PowerUsersRecord.enumerate_power_users`: the user's last
name, start date, and (optional) end date, in that order. -/
structure PowerUserEntry where
  name : String
  user_start : Date
  user_end : Option Date
deriving DecidableEq, Repr

/-- Abstract power users record interface, as consumed by `BillingPolicy`
(`cbsserverbilling.records.PowerUsersRecord`): a list of user tuples for a
PI name and a date range. -/
structure PowerUsersRecord where
  enumerate_power_users : String → Date → Date → List PowerUserEntry

/-- One entry of `BillingPolicy.enumerate_quarterly_power_user_prices`:
name, start date, end date, and price. -/
structure PricedPowerUser where
  name : String
  user_start : Date
  user_end : Option Date
  price : ℚ
deriving DecidableEq, Repr

/-- First zero-price test of the loop in
`enumerate_quarterly_power_user_prices`: the user's end date exists and is
at or before the month-2 cutoff. -/
def user_end_too_early (cutoff2 : Date) : Option Date → Bool
  | some e => Date.ble e cutoff2
  | none => false

/-- Combined billability test of the pricing loop: the user's end date (if
any) is strictly after the month-2 cutoff and the start date is at or
before the month-1 cutoff. -/
def user_billable (cutoff2 cutoff1 : Date) (ustart : Date) (uend : Option Date) : Bool :=
  !(user_end_too_early cutoff2 uend) && !(Date.blt cutoff1 ustart)

/-- The pricing loop of `enumerate_quarterly_power_user_prices`, with the
`first_price_applied` flag made explicit. -/
def price_power_users (cutoff2 cutoff1 : Date) (first_price_applied : Bool) :
    List PowerUserEntry → List PricedPowerUser
  | [] => []
  | u :: rest =>
    if user_end_too_early cutoff2 u.user_end then
      ⟨u.name, u.user_start, u.user_end, 0⟩ ::
        price_power_users cutoff2 cutoff1 first_price_applied rest
    else if Date.blt cutoff1 u.user_start then
      ⟨u.name, u.user_start, u.user_end, 0⟩ ::
        price_power_users cutoff2 cutoff1 first_price_applied rest
    else if first_price_applied then
      ⟨u.name, u.user_start, u.user_end, ADDITIONAL_POWER_USER_PRICE * (1 / 4)⟩ ::
        price_power_users cutoff2 cutoff1 first_price_applied rest
    else
      ⟨u.name, u.user_start, u.user_end, FIRST_POWER_USER_PRICE * (1 / 4)⟩ ::
        price_power_users cutoff2 cutoff1 true rest

/-- Embedding of `BillingPolicy.enumerate_quarterly_power_user_prices` (the
cutoff dates, recomputed per user in the source, are loop invariants and
hoisted here). -/
def enumerate_quarterly_power_user_prices (record : PowerUsersRecord)
    (pi_last_name : String) (start_date : Date) : List PricedPowerUser :=
  let end_date := get_end_of_period start_date.year start_date.month PERIOD_LENGTH
  let power_users := record.enumerate_power_users pi_last_name start_date end_date
  price_power_users (get_end_of_period start_date.year start_date.month MIN_BILL_USAGE)
    (get_end_of_period start_date.year start_date.month (PERIOD_LENGTH - MIN_BILL_USAGE))
    false power_users

/-- Day number of a civil date (days since 1970-01-01); used only to
express the spec's day counts for claim C1. -/
def Date.toRataDie (d : Date) : Int :=
  let y : Int := if d.month ≤ 2 then d.year - 1 else d.year
  let era : Int := (if y ≥ 0 then y else y - 399) / 400
  let yoe : Int := y - era * 400
  let mp : Int := (d.month + 9) % 12
  let doy : Int := (153 * mp + 2) / 5 + d.day - 1
  let doe : Int := yoe * 365 + yoe / 4 - yoe / 100 + doy
  era * 146097 + doe - 719468

/-- Modelled from the spec: the number of days in the quarter's
minimum-usage window, `max(days(month2_cutoff) - days(quarter_start),
days(quarter_end) - days(month(1)_cutoff))`. -/
def spec_min_usage_window_days (start_date : Date) : Int :=
  let qe := get_end_of_period start_date.year start_date.month PERIOD_LENGTH
  let c2 := get_end_of_period start_date.year start_date.month MIN_BILL_USAGE
  let c1 := get_end_of_period start_date.year start_date.month
    (PERIOD_LENGTH - MIN_BILL_USAGE)
  max (c2.toRataDie - start_date.toRataDie) (qe.toRataDie - c1.toRataDie)

/-- Modelled from the spec: the number of days of the quarter on which a
user term `[user_start, user_end]` is active, evaluated day-by-day over the
full quarter. -/
def spec_active_day_count (ustart : Date) (uend : Option Date) (start_date : Date) : Nat :=
  let qe := get_end_of_period start_date.year start_date.month PERIOD_LENGTH
  ((List.range ((qe.toRataDie - start_date.toRataDie).toNat + 1)).map
      (fun i => start_date.toRataDie + i)).countP
    (fun d => decide (ustart.toRataDie ≤ d) &&
      (match uend with
       | some e => decide (d ≤ e.toRataDie)
       | none => true))

/-- Record with a single power user whose term (2020-11-30 to 2021-01-01)
passes the endpoint tests of the pricing loop but covers only 33 days of
the quarter starting 2020-11-01. -/
def c1Record : PowerUsersRecord :=
  ⟨fun _ _ _ => [⟨"Able", ⟨2020, 11, 30⟩, some ⟨2021, 1, 1⟩⟩]⟩

/-- The quarterly price of the first power user. -/
theorem first_quarter_price_ne_zero : FIRST_POWER_USER_PRICE * (1 / 4) ≠ 0 := by
  norm_num [FIRST_POWER_USER_PRICE]

/-- The quarterly price of an additional power user. -/
theorem additional_quarter_price_ne_zero : ADDITIONAL_POWER_USER_PRICE * (1 / 4) ≠ 0 := by
  norm_num [ADDITIONAL_POWER_USER_PRICE]

/-- The two quarterly power-user rates differ. -/
theorem first_quarter_price_ne_additional :
    FIRST_POWER_USER_PRICE * (1 / 4) ≠ ADDITIONAL_POWER_USER_PRICE * (1 / 4) := by
  norm_num [FIRST_POWER_USER_PRICE, ADDITIONAL_POWER_USER_PRICE]

/-- The first-user annual rate is nonzero. -/
theorem first_price_ne_zero : ¬FIRST_POWER_USER_PRICE = 0 := by
  norm_num [FIRST_POWER_USER_PRICE]

/-- The additional-user annual rate is nonzero. -/
theorem additional_price_ne_zero : ¬ADDITIONAL_POWER_USER_PRICE = 0 := by
  norm_num [ADDITIONAL_POWER_USER_PRICE]

/-- The two annual power-user rates differ. -/
theorem first_price_ne_additional :
    ¬FIRST_POWER_USER_PRICE = ADDITIONAL_POWER_USER_PRICE := by
  norm_num [FIRST_POWER_USER_PRICE, ADDITIONAL_POWER_USER_PRICE]

/-- In every output entry of the pricing loop, the price is nonzero exactly
when the entry passes the endpoint billability test, whatever the flag. -/
theorem price_power_users_nonzero_iff (cutoff2 cutoff1 : Date) (flag : Bool)
    (l : List PowerUserEntry) :
    (price_power_users cutoff2 cutoff1 flag l).all
      (fun e => decide (e.price ≠ 0) ==
        user_billable cutoff2 cutoff1 e.user_start e.user_end) = true := by
  induction l generalizing flag with
  | nil => rfl
  | cons u rest ih =>
    cases h1 : user_end_too_early cutoff2 u.user_end with
    | true =>
      simp only [price_power_users, h1, if_true, List.all_cons, ih, Bool.and_true]
      simp [user_billable, h1]
    | false =>
      cases h2 : Date.blt cutoff1 u.user_start with
      | true =>
        simp only [price_power_users, h1, h2, Bool.false_eq_true, if_false, if_true,
          List.all_cons, ih, Bool.and_true]
        simp [user_billable, h1, h2]
      | false =>
        cases hf : flag with
        | true =>
          simp only [price_power_users, h1, h2, Bool.false_eq_true, if_false, if_true,
            List.all_cons, ih, Bool.and_true]
          simp [user_billable, h1, h2]
          norm_num [ADDITIONAL_POWER_USER_PRICE]
        | false =>
          simp only [price_power_users, h1, h2, Bool.false_eq_true, if_false,
            List.all_cons, ih, Bool.and_true]
          simp [user_billable, h1, h2]
          norm_num [FIRST_POWER_USER_PRICE]

/-- With the flag already set, the pricing loop maps each user to the
additional rate when billable and zero otherwise. -/
theorem price_power_users_true_eq_map (cutoff2 cutoff1 : Date)
    (l : List PowerUserEntry) :
    price_power_users cutoff2 cutoff1 true l =
      l.map (fun u => ⟨u.name, u.user_start, u.user_end,
        if user_billable cutoff2 cutoff1 u.user_start u.user_end then
          ADDITIONAL_POWER_USER_PRICE * (1 / 4)
        else 0⟩) := by
  induction l with
  | nil => rfl
  | cons u rest ih =>
    cases h1 : user_end_too_early cutoff2 u.user_end with
    | true =>
      simp only [price_power_users, h1, if_true, List.map_cons, ih]
      simp [user_billable, h1]
    | false =>
      cases h2 : Date.blt cutoff1 u.user_start with
      | true =>
        simp only [price_power_users, h1, h2, Bool.false_eq_true, if_false, if_true,
          List.map_cons, ih]
        simp [user_billable, h1, h2]
      | false =>
        simp only [price_power_users, h1, h2, Bool.false_eq_true, if_false, if_true,
          List.map_cons, ih]
        simp [user_billable, h1, h2]

/-- Date comparison is reflexive. -/
theorem Date.ble_refl (d : Date) : Date.ble d d = true := by
  simp [Date.ble]

/-- C1 counterexample: the power user of `c1Record` is billed the nonzero
first-user quarterly rate for the quarter starting 2020-11-01 although they
are active on only 33 days of the quarter, fewer than the 62 days of the
quarter's minimum-usage window; the pricing loop tests only the term's
endpoints against the cutoffs, not a day count. -/
theorem power_user_price_ignores_day_count :
    (enumerate_quarterly_power_user_prices c1Record "PI" ⟨2020, 11, 1⟩).map
        (fun e => e.price) = [FIRST_POWER_USER_PRICE * (1 / 4)] ∧
      FIRST_POWER_USER_PRICE * (1 / 4) ≠ 0 ∧
      (spec_active_day_count ⟨2020, 11, 30⟩ (some ⟨2021, 1, 1⟩) ⟨2020, 11, 1⟩ : Int) <
        spec_min_usage_window_days ⟨2020, 11, 1⟩ := by
  refine ⟨by rfl, first_quarter_price_ne_zero, by decide⟩

/-- C1 (amended): a power user enumerated for the quarter is billed a
nonzero price by `enumerate_quarterly_power_user_prices` exactly when their
end date (if any) is strictly after the quarter's month-2 cutoff and their
start date is at or before the month-1 cutoff; users failing these endpoint
comparisons receive price 0. -/
theorem power_user_nonzero_price_iff_endpoints (record : PowerUsersRecord)
    (pi_last_name : String) (sd : Date) :
    (enumerate_quarterly_power_user_prices record pi_last_name sd).all
      (fun e => decide (e.price ≠ 0) ==
        user_billable (get_end_of_period sd.year sd.month MIN_BILL_USAGE)
          (get_end_of_period sd.year sd.month (PERIOD_LENGTH - MIN_BILL_USAGE))
          e.user_start e.user_end) = true :=
  price_power_users_nonzero_iff _ _ false _

/-- A non-billable user heads the pricing loop with price 0 and leaves the
flag unchanged. -/
theorem price_power_users_cons_nonbillable (cutoff2 cutoff1 : Date) (flag : Bool)
    (u : PowerUserEntry) (rest : List PowerUserEntry)
    (hb : user_billable cutoff2 cutoff1 u.user_start u.user_end = false) :
    price_power_users cutoff2 cutoff1 flag (u :: rest) =
      ⟨u.name, u.user_start, u.user_end, 0⟩ ::
        price_power_users cutoff2 cutoff1 flag rest := by
  rw [user_billable, Bool.and_eq_false_iff] at hb
  rcases hb with h | h
  · rw [Bool.not_eq_false'] at h
    simp [price_power_users, h]
  · rw [Bool.not_eq_false'] at h
    cases h1 : user_end_too_early cutoff2 u.user_end with
    | true => simp [price_power_users, h1]
    | false => simp [price_power_users, h1, h]

/-- A billable user heading the pricing loop with the flag unset receives
the first-user quarterly rate and sets the flag. -/
theorem price_power_users_cons_billable (cutoff2 cutoff1 : Date)
    (u : PowerUserEntry) (rest : List PowerUserEntry)
    (hb : user_billable cutoff2 cutoff1 u.user_start u.user_end = true) :
    price_power_users cutoff2 cutoff1 false (u :: rest) =
      ⟨u.name, u.user_start, u.user_end, FIRST_POWER_USER_PRICE * (1 / 4)⟩ ::
        price_power_users cutoff2 cutoff1 true rest := by
  rw [user_billable, Bool.and_eq_true, Bool.not_eq_true', Bool.not_eq_true'] at hb
  simp [price_power_users, hb.1, hb.2]

/-- Structure of the pricing loop started with the flag unset on a
start-date-sorted list with at least one billable user: exactly one entry
carries the first-user rate, all other billable entries carry the
additional rate, non-billable entries carry 0, and the first-rate entry is
billable with the chronologically smallest start date among billable
entries. -/
theorem price_power_users_false_counts (cutoff2 cutoff1 : Date)
    (l : List PowerUserEntry)
    (hsorted : l.Pairwise (fun a b => Date.ble a.user_start b.user_start = true))
    (hn : 0 < l.countP
      (fun u => user_billable cutoff2 cutoff1 u.user_start u.user_end)) :
    ((price_power_users cutoff2 cutoff1 false l).countP
        (fun e => decide (e.price = FIRST_POWER_USER_PRICE * (1 / 4)))) = 1 ∧
    ((price_power_users cutoff2 cutoff1 false l).countP
        (fun e => decide (e.price = ADDITIONAL_POWER_USER_PRICE * (1 / 4)))) =
      l.countP (fun u => user_billable cutoff2 cutoff1 u.user_start u.user_end) - 1 ∧
    (∀ e ∈ price_power_users cutoff2 cutoff1 false l,
      user_billable cutoff2 cutoff1 e.user_start e.user_end = false → e.price = 0) ∧
    ∃ e ∈ price_power_users cutoff2 cutoff1 false l,
      e.price = FIRST_POWER_USER_PRICE * (1 / 4) ∧
      user_billable cutoff2 cutoff1 e.user_start e.user_end = true ∧
      ∀ e2 ∈ price_power_users cutoff2 cutoff1 false l,
        user_billable cutoff2 cutoff1 e2.user_start e2.user_end = true →
          Date.ble e.user_start e2.user_start = true := by
  induction l with
  | nil => simp at hn
  | cons u rest ih =>
    rcases List.pairwise_cons.mp hsorted with ⟨hu, htail⟩
    cases hb : user_billable cutoff2 cutoff1 u.user_start u.user_end with
    | true =>
      rw [price_power_users_cons_billable cutoff2 cutoff1 u rest hb,
        price_power_users_true_eq_map]
      refine ⟨?_, ?_, ?_, ?_⟩
      · rw [List.countP_cons_of_pos _ _ (by simp), List.countP_map]
        have hz : rest.countP ((fun e => decide
            (e.price = FIRST_POWER_USER_PRICE * (1 / 4))) ∘
            (fun u2 => (⟨u2.name, u2.user_start, u2.user_end,
              if user_billable cutoff2 cutoff1 u2.user_start u2.user_end then
                ADDITIONAL_POWER_USER_PRICE * (1 / 4) else 0⟩ : PricedPowerUser))) = 0 := by
          rw [List.countP_eq_zero]
          intro u2 _
          simp only [Function.comp_apply, decide_eq_true_eq]
          cases hb2 : user_billable cutoff2 cutoff1 u2.user_start u2.user_end with
          | true =>
            simp only [if_true]
            exact fun h => first_quarter_price_ne_additional h.symm
          | false =>
            simp only [Bool.false_eq_true, if_false]
            exact fun h => first_quarter_price_ne_zero h.symm
        rw [hz]
      · rw [List.countP_cons_of_neg _ _
            (by simp [first_price_ne_additional]),
          List.countP_map, List.countP_cons_of_pos _ _ (by simp [hb])]
        have hc : rest.countP ((fun e => decide
            (e.price = ADDITIONAL_POWER_USER_PRICE * (1 / 4))) ∘
            (fun u2 => (⟨u2.name, u2.user_start, u2.user_end,
              if user_billable cutoff2 cutoff1 u2.user_start u2.user_end then
                ADDITIONAL_POWER_USER_PRICE * (1 / 4) else 0⟩ : PricedPowerUser))) =
            rest.countP
              (fun u2 => user_billable cutoff2 cutoff1 u2.user_start u2.user_end) := by
          apply List.countP_congr
          intro u2 _
          simp only [Function.comp_apply]
          cases hb2 : user_billable cutoff2 cutoff1 u2.user_start u2.user_end with
          | true => simp
          | false =>
            simp only [Bool.false_eq_true, if_false, decide_eq_true_eq]
            simp [additional_price_ne_zero]
        rw [hc]
        omega
      · intro e he hbe
        rcases List.mem_cons.mp he with rfl | he2
        · simp at hbe
          rw [hbe] at hb
          exact absurd hb (by simp)
        · rcases List.mem_map.mp he2 with ⟨u2, _, rfl⟩
          simp only at hbe
          simp [hbe]
      · refine ⟨⟨u.name, u.user_start, u.user_end,
          FIRST_POWER_USER_PRICE * (1 / 4)⟩, List.mem_cons_self _ _, rfl, hb, ?_⟩
        intro e2 he2 hbe2
        rcases List.mem_cons.mp he2 with rfl | he3
        · exact Date.ble_refl _
        · rcases List.mem_map.mp he3 with ⟨u2, hu2, rfl⟩
          exact hu u2 hu2
    | false =>
      rw [price_power_users_cons_nonbillable cutoff2 cutoff1 false u rest hb]
      have hn2 : 0 < rest.countP
          (fun u2 => user_billable cutoff2 cutoff1 u2.user_start u2.user_end) := by
        rw [List.countP_cons_of_neg _ _ (by simp [hb])] at hn
        exact hn
      rcases ih htail hn2 with ⟨ha, hadd, hzero, e, he, hp, hbe, hmin⟩
      refine ⟨?_, ?_, ?_, ?_⟩
      · rw [List.countP_cons_of_neg _ _ (by simp [first_price_ne_zero])]
        exact ha
      · rw [List.countP_cons_of_neg _ _ (by simp [additional_price_ne_zero]),
          List.countP_cons_of_neg _ _ (by simp [hb])]
        exact hadd
      · intro e2 he2 hbe2
        rcases List.mem_cons.mp he2 with rfl | he3
        · rfl
        · exact hzero e2 he3 hbe2
      · refine ⟨e, List.mem_cons_of_mem _ he, hp, hbe, ?_⟩
        intro e2 he2 hbe2
        rcases List.mem_cons.mp he2 with rfl | he3
        · simp only at hbe2
          rw [hbe2] at hb
          exact absurd hb (by simp)
        · exact hmin e2 he3 hbe2

/-- C4: for a record whose enumerated power users are sorted by ascending
start date (as `PowerUsersRecord.enumerate_power_users` sorts them) with at
least one billable user, `enumerate_quarterly_power_user_prices` assigns the
first-power-user quarterly rate to exactly one user, the additional rate to
the remaining billable users, zero to non-billable users, and the
first-rate user is billable with the chronologically earliest start date
among billable users, independently of any name order. -/
theorem power_user_pricing_order (record : PowerUsersRecord)
    (pi_last_name : String) (sd : Date)
    (hsorted : (record.enumerate_power_users pi_last_name sd
        (get_end_of_period sd.year sd.month PERIOD_LENGTH)).Pairwise
      (fun a b => Date.ble a.user_start b.user_start = true))
    (hn : 0 < (record.enumerate_power_users pi_last_name sd
        (get_end_of_period sd.year sd.month PERIOD_LENGTH)).countP
      (fun u => user_billable (get_end_of_period sd.year sd.month MIN_BILL_USAGE)
        (get_end_of_period sd.year sd.month (PERIOD_LENGTH - MIN_BILL_USAGE))
        u.user_start u.user_end)) :
    ((enumerate_quarterly_power_user_prices record pi_last_name sd).countP
        (fun e => decide (e.price = FIRST_POWER_USER_PRICE * (1 / 4)))) = 1 ∧
    ((enumerate_quarterly_power_user_prices record pi_last_name sd).countP
        (fun e => decide (e.price = ADDITIONAL_POWER_USER_PRICE * (1 / 4)))) =
      (record.enumerate_power_users pi_last_name sd
        (get_end_of_period sd.year sd.month PERIOD_LENGTH)).countP
        (fun u => user_billable (get_end_of_period sd.year sd.month MIN_BILL_USAGE)
          (get_end_of_period sd.year sd.month (PERIOD_LENGTH - MIN_BILL_USAGE))
          u.user_start u.user_end) - 1 ∧
    (∀ e ∈ enumerate_quarterly_power_user_prices record pi_last_name sd,
      user_billable (get_end_of_period sd.year sd.month MIN_BILL_USAGE)
        (get_end_of_period sd.year sd.month (PERIOD_LENGTH - MIN_BILL_USAGE))
        e.user_start e.user_end = false → e.price = 0) ∧
    ∃ e ∈ enumerate_quarterly_power_user_prices record pi_last_name sd,
      e.price = FIRST_POWER_USER_PRICE * (1 / 4) ∧
      user_billable (get_end_of_period sd.year sd.month MIN_BILL_USAGE)
        (get_end_of_period sd.year sd.month (PERIOD_LENGTH - MIN_BILL_USAGE))
        e.user_start e.user_end = true ∧
      ∀ e2 ∈ enumerate_quarterly_power_user_prices record pi_last_name sd,
        user_billable (get_end_of_period sd.year sd.month MIN_BILL_USAGE)
          (get_end_of_period sd.year sd.month (PERIOD_LENGTH - MIN_BILL_USAGE))
          e2.user_start e2.user_end = true →
          Date.ble e.user_start e2.user_start = true :=
  price_power_users_false_counts _ _ _ hsorted hn

/-- Record with two power users for the C4 witness: one starting before the
month-1 cutoff of the 2020-11-01 quarter and billable, one starting after
it and not billable, listed in ascending start-date order. -/
def c4Record : PowerUsersRecord :=
  ⟨fun _ _ _ => [⟨"Early", ⟨2020, 10, 1⟩, none⟩, ⟨"Late", ⟨2020, 12, 15⟩, none⟩]⟩

/-- Witness for the C4 theorem at `c4Record` and the quarter starting
2020-11-01. -/
theorem power_user_pricing_order_witness :
    ((enumerate_quarterly_power_user_prices c4Record "PI" ⟨2020, 11, 1⟩).countP
        (fun e => decide (e.price = FIRST_POWER_USER_PRICE * (1 / 4)))) = 1 ∧
    ((enumerate_quarterly_power_user_prices c4Record "PI" ⟨2020, 11, 1⟩).countP
        (fun e => decide (e.price = ADDITIONAL_POWER_USER_PRICE * (1 / 4)))) =
      (c4Record.enumerate_power_users "PI" ⟨2020, 11, 1⟩
        (get_end_of_period 2020 11 PERIOD_LENGTH)).countP
        (fun u => user_billable (get_end_of_period 2020 11 MIN_BILL_USAGE)
          (get_end_of_period 2020 11 (PERIOD_LENGTH - MIN_BILL_USAGE))
          u.user_start u.user_end) - 1 ∧
    (∀ e ∈ enumerate_quarterly_power_user_prices c4Record "PI" ⟨2020, 11, 1⟩,
      user_billable (get_end_of_period 2020 11 MIN_BILL_USAGE)
        (get_end_of_period 2020 11 (PERIOD_LENGTH - MIN_BILL_USAGE))
        e.user_start e.user_end = false → e.price = 0) ∧
    ∃ e ∈ enumerate_quarterly_power_user_prices c4Record "PI" ⟨2020, 11, 1⟩,
      e.price = FIRST_POWER_USER_PRICE * (1 / 4) ∧
      user_billable (get_end_of_period 2020 11 MIN_BILL_USAGE)
        (get_end_of_period 2020 11 (PERIOD_LENGTH - MIN_BILL_USAGE))
        e.user_start e.user_end = true ∧
      ∀ e2 ∈ enumerate_quarterly_power_user_prices c4Record "PI" ⟨2020, 11, 1⟩,
        user_billable (get_end_of_period 2020 11 MIN_BILL_USAGE)
          (get_end_of_period 2020 11 (PERIOD_LENGTH - MIN_BILL_USAGE))
          e2.user_start e2.user_end = true →
          Date.ble e.user_start e2.user_start = true :=
  power_user_pricing_order c4Record "PI" ⟨2020, 11, 1⟩
    (by
      refine List.pairwise_cons.mpr ⟨?_, List.pairwise_cons.mpr ⟨?_, List.Pairwise.nil⟩⟩
      · intro b hb
        rcases List.mem_singleton.mp hb with rfl
        decide
      · intro b hb
        exact absurd hb (List.not_mem_nil b))
    (by decide)

/-- Python `max(l, key=...)` on a list: the first element with maximal key
wins (later elements replace only on a strictly greater key); `none` on an
empty list, where Python raises `ValueError`. -/
def foldMax (lt : α → α → Bool) : List α → Option α
  | [] => none
  | x :: rest => some (rest.foldl (fun best v => if lt best v then v else best) x)

/-- The element selected by `foldMax` is a member of the list. -/
theorem foldMax_mem (lt : α → α → Bool) (l : List α) (x : α)
    (h : foldMax lt l = some x) : x ∈ l := by
  match l with
  | [] => exact absurd h (by simp [foldMax])
  | y :: rest =>
    simp only [foldMax, Option.some.injEq] at h
    subst h
    have key : ∀ (rest2 : List α) (start : α),
        rest2.foldl (fun best v => if lt best v then v else best) start = start ∨
          rest2.foldl (fun best v => if lt best v then v else best) start ∈ rest2 := by
      intro rest2
      induction rest2 with
      | nil => exact fun start => Or.inl rfl
      | cons z zs ih =>
        intro start
        simp only [List.foldl_cons]
        cases hz : lt start z with
        | true =>
          simp only [hz, if_true]
          rcases ih z with h2 | h2
          · exact Or.inr (by rw [h2]; exact List.mem_cons_self _ _)
          · exact Or.inr (List.mem_cons_of_mem _ h2)
        | false =>
          simp only [hz, Bool.false_eq_true, if_false]
          rcases ih start with h2 | h2
          · exact Or.inl h2
          · exact Or.inr (List.mem_cons_of_mem _ h2)
    rcases key rest y with h2 | h2
    · rw [h2]; exact List.mem_cons_self _ _
    · exact List.mem_cons_of_mem _ h2

/-- An update to a user (`cbsserverbilling.spreadsheet.user.Update`). -/
structure Update where
  date : Date
  power_user : Option Bool := none
  pi_name : Option String := none
deriving DecidableEq, Repr

/-- A user with its updates
(`cbsserverbilling.spreadsheet.user.UpdateUser`, whose identity and window
fields come from the `User` base class). -/
structure UpdateUser where
  name : String
  email : String
  start_date : Date
  end_date : Option Date := none
  updates : List Update := []
deriving DecidableEq, Repr

/-- Modelled from the spec: the `User` base class (`cbsserverbilling.records`
as imported by the spreadsheet modules) is absent from the sources; per the
spec, a user is active on every date of `[start_date, end_date]`, with an
open-ended window when no end date is set. -/
def UpdateUser.is_active (u : UpdateUser) (date : Date) : Bool :=
  Date.ble u.start_date date &&
    (match u.end_date with
     | none => true
     | some e => Date.ble date e)

/-- Embedding of `UpdateUser.is_power_user`: `none` models the
`InactiveUserError` raised for a date outside the active window and the
`ValueError` Python `max` raises on an empty sequence. -/
def UpdateUser.is_power_user (u : UpdateUser) (date : Date) : Option Bool :=
  if u.is_active date then
    match foldMax (fun a b => Date.blt a.date b.date)
        (u.updates.filter (fun upd => upd.power_user.isSome && Date.ble upd.date date)) with
    | none => none
    | some upd => upd.power_user
  else none

/-- Embedding of `UpdateUser.get_pi_name`, with the same error modelling as
`UpdateUser.is_power_user`. -/
def UpdateUser.get_pi_name (u : UpdateUser) (date : Date) : Option String :=
  if u.is_active date then
    match foldMax (fun a b => Date.blt a.date b.date)
        (u.updates.filter (fun upd => upd.pi_name.isSome && Date.ble upd.date date)) with
    | none => none
    | some upd => upd.pi_name
  else none

/-- Construction of an `UpdateUser` through the attrs validator
`_both_defined` of `cbsserverbilling.spreadsheet.user`: the update set must
contain an update with a power-user flag and one with a truthy PI name. -/
def mkUpdateUser (name email : String) (start_date : Date) (end_date : Option Date)
    (updates : List Update) : Except String UpdateUser :=
  if (updates.filter (fun upd => upd.power_user.isSome)).isEmpty then
    Except.error "power_user"
  else if (updates.filter (fun upd =>
      match upd.pi_name with
      | some s => !s.isEmpty
      | none => false)).isEmpty then
    Except.error "pi_name"
  else Except.ok ⟨name, email, start_date, end_date, updates⟩

/-- An update to a project (`cbsserverbilling.spreadsheet.project.ProjectUpdate`). -/
structure ProjectUpdate where
  date : Date
  speed_code : Option String
  additional_storage : Option ℚ
deriving DecidableEq, Repr

/-- A project (`cbsserverbilling.spreadsheet.project.Project`). -/
structure Project where
  open_date : Date
  email : String
  pi_last_name : String
  pi_full_name : Option String := none
  close_date : Option Date := none
  updates : List ProjectUpdate := []
deriving DecidableEq, Repr

/-- Construction of a `Project` through the attrs validator `_both_defined`
of `cbsserverbilling.spreadsheet.project`: the update set must contain an
update with a storage amount and one with a truthy speed code. -/
def mkProject (open_date : Date) (email pi_last_name : String)
    (pi_full_name : Option String) (close_date : Option Date)
    (updates : List ProjectUpdate) : Except String Project :=
  if (updates.filter (fun upd => upd.additional_storage.isSome)).isEmpty then
    Except.error "additional_storage"
  else if (updates.filter (fun upd =>
      match upd.speed_code with
      | some s => !s.isEmpty
      | none => false)).isEmpty then
    Except.error "speed code"
  else Except.ok ⟨open_date, email, pi_last_name, pi_full_name, close_date, updates⟩

/-- Embedding of `Project.is_active`. -/
def Project.is_active (p : Project) (date : Date) : Bool :=
  Date.ble p.open_date date &&
    (match p.close_date with
     | none => true
     | some c => Date.ble date c)

/-- Embedding of `Project.get_speed_code`.  Note that, unlike
`Project.get_storage` and the user accessors, the updates are filtered only
for a truthy speed code, with no comparison of the update date against the
query date. -/
def Project.get_speed_code (p : Project) (date : Date) : Option String :=
  if p.is_active date then
    match foldMax (fun a b => Date.blt a.date b.date)
        (p.updates.filter (fun upd =>
          match upd.speed_code with
          | some s => !s.isEmpty
          | none => false)) with
    | none => none
    | some upd => upd.speed_code
  else none

/-- Modelled from the spec: the point-in-time speed code, i.e. the speed
code of the most recent update dated at or before the query date among
updates that set a speed code. -/
def spec_point_in_time_speed_code (p : Project) (date : Date) : Option String :=
  if p.is_active date then
    match foldMax (fun a b => Date.blt a.date b.date)
        (p.updates.filter (fun upd =>
          (match upd.speed_code with
           | some s => !s.isEmpty
           | none => false) && Date.ble upd.date date)) with
    | none => none
    | some upd => upd.speed_code
  else none

/-- Project with speed code A set at opening (2020-01-01) and speed code B
set by an update dated 2021-01-01, used to exhibit claim C5's failure. -/
def c5Project : Project where
  open_date := ⟨2020, 1, 1⟩
  email := "pi@uni.ca"
  pi_last_name := "PI"
  updates := [⟨⟨2020, 1, 1⟩, some "A", some 1⟩, ⟨⟨2021, 1, 1⟩, some "B", none⟩]

/-- C5: queried on 2020-06-01, `Project.get_speed_code` returns speed code
B although the update that set B is dated 2021-01-01, after the query date:
the update-date filter is missing, so updates after the query date do
affect the result, against the spec's point-in-time rule (which yields A). -/
theorem get_speed_code_ignores_query_date :
    c5Project.get_speed_code ⟨2020, 6, 1⟩ = some "B" ∧
      spec_point_in_time_speed_code c5Project ⟨2020, 6, 1⟩ = some "A" ∧
      (some "B" : Option String) ≠ some "A" := by
  refine ⟨by decide, by decide, by decide⟩

/-- C9 counterexample: a project whose close date 2020-01-01 precedes its
open date 2020-05-01 is constructed successfully; the construction-time
validator checks only that a storage update and a speed-code update are
present, not the date ordering. -/
theorem project_construction_accepts_inverted_dates :
    Date.blt ⟨2020, 1, 1⟩ ⟨2020, 5, 1⟩ = true ∧
      mkProject ⟨2020, 5, 1⟩ "pi@uni.ca" "PI" none (some ⟨2020, 1, 1⟩)
          [⟨⟨2020, 5, 1⟩, some "S", some 1⟩] =
        Except.ok ⟨⟨2020, 5, 1⟩, "pi@uni.ca", "PI", none, some ⟨2020, 1, 1⟩,
          [⟨⟨2020, 5, 1⟩, some "S", some 1⟩]⟩ := by
  refine ⟨by decide, by rfl⟩

/-- C9 (amended): construction of a user or project entity succeeds exactly
when the required attribute history is present (an update with a power-user
flag and one with a truthy PI name for users; an update with a storage
amount and one with a truthy speed code for projects), with no constraint
relating the end (close) date to the start (open) date. -/
theorem entity_construction_ignores_date_order :
    (∀ (name email : String) (sd : Date) (ed : Option Date) (ups : List Update),
      mkUpdateUser name email sd ed ups = Except.ok ⟨name, email, sd, ed, ups⟩ ↔
        ((ups.filter (fun upd => upd.power_user.isSome)).isEmpty = false ∧
          (ups.filter (fun upd =>
            match upd.pi_name with
            | some s => !s.isEmpty
            | none => false)).isEmpty = false)) ∧
    (∀ (od : Date) (email pi : String) (full : Option String) (cd : Option Date)
        (ups : List ProjectUpdate),
      mkProject od email pi full cd ups = Except.ok ⟨od, email, pi, full, cd, ups⟩ ↔
        ((ups.filter (fun upd => upd.additional_storage.isSome)).isEmpty = false ∧
          (ups.filter (fun upd =>
            match upd.speed_code with
            | some s => !s.isEmpty
            | none => false)).isEmpty = false)) := by
  constructor
  · intro name email sd ed ups
    unfold mkUpdateUser
    cases h1 : (ups.filter (fun upd => upd.power_user.isSome)).isEmpty with
    | true => simp [h1]
    | false =>
      cases h2 : (ups.filter (fun upd =>
          match upd.pi_name with
          | some s => !s.isEmpty
          | none => false)).isEmpty with
      | true => simp [h2]
      | false => simp [h1, h2]
  · intro od email pi full cd ups
    unfold mkProject
    cases h1 : (ups.filter (fun upd => upd.additional_storage.isSome)).isEmpty with
    | true => simp [h1]
    | false =>
      cases h2 : (ups.filter (fun upd =>
          match upd.speed_code with
          | some s => !s.isEmpty
          | none => false)).isEmpty with
      | true => simp [h2]
      | false => simp [h1, h2]

/-- Errors of the user reconstruction fold: `UserAlreadyActiveError`,
`InapplicableUpdateError`, the Python-level failures of the inherited
attribute lookups during reinstatement (`InactiveUserError`, an empty
`max`, or comparing against a missing end date), and the
`InvalidUserError` raised by the `_both_defined` validator that attrs
`evolve` re-runs on a replaced update set. -/
inductive UserFoldError where
  | alreadyActive : UserFoldError
  | inapplicable : UserFoldError
  | lookupFailed : UserFoldError
  | invalidUser : UserFoldError
deriving DecidableEq, Repr

/-- A new account request
(`cbsserverbilling.spreadsheet.user.AccountRequest`). -/
structure AccountRequest where
  timestamp : Date
  name : String
  email : String
  pi_name : String
  power_user : Bool
  end_date : Option Date := none
deriving DecidableEq, Repr

/-- Embedding of `AccountRequest.create_user`: a new user with one update,
dated at the start date, setting both the power-user flag and the PI name
(the constructor's validator passes by construction). -/
def AccountRequest.create_user (r : AccountRequest) : UpdateUser where
  name := r.name
  email := r.email
  start_date := r.timestamp
  end_date := r.end_date
  updates := [⟨r.timestamp, some r.power_user, some r.pi_name⟩]

/-- Embedding of `AccountRequest.update_user`: a repeated creation event
replaces the end date and adds an update carrying its attributes. -/
def AccountRequest.update_user (r : AccountRequest) (u : UpdateUser) : UpdateUser :=
  { u with
    end_date := r.end_date
    updates := u.updates ++ [⟨r.timestamp, some r.power_user, some r.pi_name⟩] }

/-- The `max(..., key=lambda user: user.start_date)` selection of the user
to update among those sharing the event's email. -/
def latestByStart (users : List UpdateUser) : Option UpdateUser :=
  foldMax (fun a b => Date.blt a.start_date b.start_date) users

/-- Embedding of `AccountRequest.handle`: update the matching user with the
latest start date if the email is known, otherwise append a new user. -/
def AccountRequest.handle (r : AccountRequest) (existing : List UpdateUser) :
    List UpdateUser :=
  match latestByStart (existing.filter (fun u => u.email == r.email)) with
  | none => existing ++ [r.create_user]
  | some to_update =>
    (existing.filter (fun u => decide (u ≠ to_update))) ++ [r.update_user to_update]

/-- An account update event
(`cbsserverbilling.spreadsheet.user.AccountUpdate`). -/
structure AccountUpdate where
  timestamp : Date
  name : String
  email : String
  pi_name : Option String := none
  power_user : Option Bool := none
  end_date : Option Date := none
deriving DecidableEq, Repr

/-- Embedding of `AccountUpdate.update_user`: extend the user's update set
with the event's sparse attribute changes. -/
def AccountUpdate.update_user (a : AccountUpdate) (u : UpdateUser) : UpdateUser :=
  { u with updates := u.updates ++ [⟨a.timestamp, a.power_user, a.pi_name⟩] }

/-- The PI name inherited at reinstatement when the event does not override
it: `user.get_pi_name(user.end_date)`, with Python failures (missing end
date, inactive date, empty `max`) modelled as errors. -/
def inheritedPiName (u : UpdateUser) : Except UserFoldError String :=
  match u.end_date with
  | none => Except.error UserFoldError.lookupFailed
  | some e =>
    match u.get_pi_name e with
    | some p => Except.ok p
    | none => Except.error UserFoldError.lookupFailed

/-- The power-user flag inherited at reinstatement when the event does not
override it: `user.is_power_user(user.end_date)`. -/
def inheritedPowerUser (u : UpdateUser) : Except UserFoldError Bool :=
  match u.end_date with
  | none => Except.error UserFoldError.lookupFailed
  | some e =>
    match u.is_power_user e with
    | some b => Except.ok b
    | none => Except.error UserFoldError.lookupFailed

/-- Embedding of `AccountUpdate.reinstate_user`.  The event's PI name is
used when truthy (Python `self.pi_name or ...`), the power-user flag when
present (`if self.power_user is not None`); the end date is replaced only
when the event carries one (`{"end_date": ...} if ... else {}`), and the
update set is replaced by the single new update.  As attrs `evolve`
re-runs the `_both_defined` validator on the replaced update set, the new
user is built through `mkUpdateUser`; an empty resulting PI name therefore
raises `InvalidUserError` (`UserFoldError.invalidUser`). -/
def AccountUpdate.reinstate_user (a : AccountUpdate) (u : UpdateUser) :
    Except UserFoldError UpdateUser :=
  if u.is_active a.timestamp then Except.error UserFoldError.alreadyActive
  else
    match (match a.pi_name with
           | some s => if s.isEmpty then inheritedPiName u else Except.ok s
           | none => inheritedPiName u),
          (match a.power_user with
           | some b => Except.ok b
           | none => inheritedPowerUser u) with
    | Except.ok pi, Except.ok pw =>
      match mkUpdateUser u.name u.email a.timestamp
          (match a.end_date with
           | some d => some d
           | none => u.end_date)
          [⟨a.timestamp, some pw, some pi⟩] with
      | Except.ok u2 => Except.ok u2
      | Except.error _ => Except.error UserFoldError.invalidUser
    | Except.error err, _ => Except.error err
    | _, Except.error err => Except.error err

/-- Embedding of `AccountUpdate.handle`: fail on an unknown email, update
the latest-start matching user in place if it is active at the event's
timestamp, otherwise append the reinstated user. -/
def AccountUpdate.handle (a : AccountUpdate) (existing : List UpdateUser) :
    Except UserFoldError (List UpdateUser) :=
  match latestByStart (existing.filter (fun u => u.email == a.email)) with
  | none => Except.error UserFoldError.inapplicable
  | some to_update =>
    if to_update.is_active a.timestamp then
      Except.ok ((existing.filter (fun u => decide (u ≠ to_update))) ++
        [a.update_user to_update])
    else
      match a.reinstate_user to_update with
      | Except.error err => Except.error err
      | Except.ok reinstated => Except.ok (existing ++ [reinstated])

/-- A change folded by the user reconstruction: a creation event or an
update event. -/
inductive Change where
  | request : AccountRequest → Change
  | update : AccountUpdate → Change
deriving DecidableEq, Repr

/-- Timestamp of a change, the sort key of the fold. -/
def Change.timestamp : Change → Date
  | Change.request r => r.timestamp
  | Change.update a => a.timestamp

/-- Dispatch of `change.handle(users)`. -/
def Change.handle : Change → List UpdateUser → Except UserFoldError (List UpdateUser)
  | Change.request r, users => Except.ok (r.handle users)
  | Change.update a, users => a.handle users

/-- The fold `for change in changes: users = change.handle(users)`. -/
def applyChanges : List Change → List UpdateUser → Except UserFoldError (List UpdateUser)
  | [], users => Except.ok users
  | c :: rest, users =>
    match c.handle users with
    | Except.error err => Except.error err
    | Except.ok users2 => applyChanges rest users2

/-- Insertion step of the timestamp sort of the combined change list. -/
def insertChangeByTimestamp (c : Change) : List Change → List Change
  | [] => [c]
  | d :: rest =>
    if Date.ble d.timestamp c.timestamp then d :: insertChangeByTimestamp c rest
    else c :: d :: rest

/-- Sort of the combined change list by ascending timestamp (Python
`sorted(requests + updates, key=lambda change: change.timestamp)`). -/
def sortChangesByTimestamp : List Change → List Change
  | [] => []
  | c :: rest => insertChangeByTimestamp c (sortChangesByTimestamp rest)

/-- Membership is preserved by the insertion step. -/
theorem mem_insertChangeByTimestamp (c : Change) (l : List Change) (x : Change) :
    x ∈ insertChangeByTimestamp c l ↔ x = c ∨ x ∈ l := by
  induction l with
  | nil => simp [insertChangeByTimestamp]
  | cons d rest ih =>
    simp only [insertChangeByTimestamp]
    cases h : Date.ble d.timestamp c.timestamp with
    | true =>
      simp only [if_true, List.mem_cons, ih]
      tauto
    | false =>
      simp only [Bool.false_eq_true, if_false, List.mem_cons]

/-- Membership is preserved by the timestamp sort. -/
theorem mem_sortChangesByTimestamp (l : List Change) (x : Change) :
    x ∈ sortChangesByTimestamp l ↔ x ∈ l := by
  induction l with
  | nil => simp [sortChangesByTimestamp]
  | cons c rest ih =>
    simp only [sortChangesByTimestamp, mem_insertChangeByTimestamp, List.mem_cons, ih]

/-- The change selection of `enumerate_all_users`
(`cbsserverbilling.spreadsheet.user`): creation events strictly before
`end_date`, and update events strictly before `end_date` that carry a new
end timestamp, merged and sorted by timestamp. -/
def selected_changes (requests : List AccountRequest) (updates : List AccountUpdate)
    (end_date : Date) : List Change :=
  sortChangesByTimestamp
    ((requests.filter (fun r => Date.blt r.timestamp end_date)).map Change.request ++
      (updates.filter (fun a =>
        Date.blt a.timestamp end_date && a.end_date.isSome)).map Change.update)

/-- Embedding of `enumerate_all_users`: fold the selected changes from an
empty working set, then keep users whose end date is absent or after
`start_date`. -/
def enumerate_all_users (requests : List AccountRequest) (updates : List AccountUpdate)
    (start_date end_date : Date) : Except UserFoldError (List UpdateUser) :=
  match applyChanges (selected_changes requests updates end_date) [] with
  | Except.error err => Except.error err
  | Except.ok users =>
    Except.ok (users.filter (fun u =>
      match u.end_date with
      | none => true
      | some e => Date.blt start_date e))

/-- Modelled from the spec: an update event carries at least one attribute
change when it sets a new end date, a new power-user flag, or a new PI
name. -/
def spec_has_attribute_change (a : AccountUpdate) : Bool :=
  a.end_date.isSome || a.power_user.isSome || a.pi_name.isSome

/-- Creation event used in the C8 counterexample. -/
def c8Request : AccountRequest :=
  ⟨⟨2020, 1, 1⟩, "User", "user@uni.ca", "PI", false, none⟩

/-- Update event carrying only a power-user change (no new end date), used
in the C8 counterexample. -/
def c8Update : AccountUpdate :=
  ⟨⟨2020, 6, 1⟩, "User", "user@uni.ca", none, some true, none⟩

/-- C8 counterexample: although the update event `c8Update` is timestamped
strictly before the window end and carries an attribute change (a new
power-user flag), it is not among the folded changes — the selection keeps
only updates with a new end timestamp — and consequently the reconstructed
user is still not a power user after the update's date. -/
theorem update_without_end_date_not_folded :
    spec_has_attribute_change c8Update = true ∧
      Date.blt c8Update.timestamp ⟨2021, 1, 1⟩ = true ∧
      selected_changes [c8Request] [c8Update] ⟨2021, 1, 1⟩ =
        [Change.request c8Request] ∧
      enumerate_all_users [c8Request] [c8Update] ⟨2019, 1, 1⟩ ⟨2021, 1, 1⟩ =
        Except.ok [c8Request.create_user] ∧
      (c8Request.create_user).is_power_user ⟨2020, 7, 1⟩ = some false := by
  refine ⟨by decide, by decide, by rfl, by rfl, by decide⟩

/-- C8 (amended): the changes folded by `enumerate_all_users` are exactly
the creation events timestamped strictly before `end_date` together with
the update events timestamped strictly before `end_date` that carry a new
end date; update events carrying only a power-user or PI-name change are
excluded. -/
theorem enumerate_all_users_fold_selection (requests : List AccountRequest)
    (updates : List AccountUpdate) (end_date : Date) :
    (∀ r : AccountRequest,
      Change.request r ∈ selected_changes requests updates end_date ↔
        r ∈ requests ∧ Date.blt r.timestamp end_date = true) ∧
    (∀ a : AccountUpdate,
      Change.update a ∈ selected_changes requests updates end_date ↔
        a ∈ updates ∧ Date.blt a.timestamp end_date = true ∧
          a.end_date.isSome = true) := by
  constructor
  · intro r
    simp only [selected_changes, mem_sortChangesByTimestamp, List.mem_append,
      List.mem_map, List.mem_filter]
    constructor
    · rintro (⟨r2, ⟨hr2, hblt⟩, heq⟩ | ⟨a2, _, heq⟩)
      · cases heq
        exact ⟨hr2, hblt⟩
      · cases heq
    · rintro ⟨hr, hblt⟩
      exact Or.inl ⟨r, ⟨hr, hblt⟩, rfl⟩
  · intro a
    simp only [selected_changes, mem_sortChangesByTimestamp, List.mem_append,
      List.mem_map, List.mem_filter]
    constructor
    · rintro (⟨r2, _, heq⟩ | ⟨a2, ⟨ha2, hcond⟩, heq⟩)
      · cases heq
      · cases heq
        rw [Bool.and_eq_true] at hcond
        exact ⟨ha2, hcond.1, hcond.2⟩
    · rintro ⟨ha, hblt, hsome⟩
      exact Or.inr ⟨a, ⟨ha, by rw [Bool.and_eq_true]; exact ⟨hblt, hsome⟩⟩, rfl⟩

/-- A successful `mkUpdateUser` returns exactly the record built from its
arguments. -/
theorem mkUpdateUser_ok (name email : String) (sd : Date) (ed : Option Date)
    (ups : List Update) (u2 : UpdateUser)
    (h : mkUpdateUser name email sd ed ups = Except.ok u2) :
    u2 = ⟨name, email, sd, ed, ups⟩ := by
  unfold mkUpdateUser at h
  by_cases h1 : (ups.filter (fun upd => upd.power_user.isSome)).isEmpty = true
  · rw [if_pos h1] at h
    exact absurd h (by simp)
  · rw [if_neg h1] at h
    by_cases h2 : (ups.filter (fun upd =>
        match upd.pi_name with
        | some s => !s.isEmpty
        | none => false)).isEmpty = true
    · rw [if_pos h2] at h
      exact absurd h (by simp)
    · rw [if_neg h2] at h
      simp only [Except.ok.injEq] at h
      exact h.symm

/-- The validator accepts a single update that sets the power-user flag and
a nonempty PI name. -/
theorem mkUpdateUser_singleton_ok (name email : String) (sd : Date)
    (ed : Option Date) (t : Date) (pw : Bool) (pi : String)
    (hne : pi.isEmpty = false) :
    mkUpdateUser name email sd ed [⟨t, some pw, some pi⟩] =
      Except.ok ⟨name, email, sd, ed, [⟨t, some pw, some pi⟩]⟩ := by
  unfold mkUpdateUser
  simp [List.filter, hne]

/-- The validator rejects a single update whose PI name is empty. -/
theorem mkUpdateUser_singleton_invalid (name email : String) (sd : Date)
    (ed : Option Date) (t : Date) (pw : Bool) (pi : String)
    (he : pi.isEmpty = true) :
    mkUpdateUser name email sd ed [⟨t, some pw, some pi⟩] =
      Except.error "pi_name" := by
  unfold mkUpdateUser
  simp [List.filter, he]

/-- User whose term ran 2020-01-01 to 2020-06-01, used for claim C6. -/
def c6User : UpdateUser :=
  ⟨"User", "user@uni.ca", ⟨2020, 1, 1⟩, some ⟨2020, 6, 1⟩,
    [⟨⟨2020, 1, 1⟩, some false, some "PI"⟩]⟩

/-- Update event addressed to `c6User`, timestamped 2021-01-01 after the
term ended, carrying no attribute overrides and no new end date. -/
def c6Update : AccountUpdate :=
  ⟨⟨2021, 1, 1⟩, "User", "user@uni.ca", none, none, none⟩

/-- C6 counterexample: reinstating `c6User` with an event that gives no end
date yields a user whose end date is still the old 2020-06-01 — not an
open-ended (absent) end date as the claim states. -/
theorem reinstatement_without_end_date_not_open_ended :
    c6Update.reinstate_user c6User =
      Except.ok ⟨"User", "user@uni.ca", ⟨2021, 1, 1⟩, some ⟨2020, 6, 1⟩,
        [⟨⟨2021, 1, 1⟩, some false, some "PI"⟩]⟩ ∧
      (some (⟨2020, 6, 1⟩ : Date) : Option Date) ≠ none := by
  refine ⟨by rfl, by decide⟩

/-- C6 (amended): handling an update event addressed to a user whose term
has ended creates a new term starting at the event's timestamp, with a
single update inheriting the PI name and power-user status as of the old
end date unless the event overrides them, provided the resulting PI name is
truthy — when it is empty, the `_both_defined` validator re-run by `evolve`
rejects the reinstated user; the end date is taken from the event if given
and otherwise the old end date is retained (not cleared); and reinstating a
user still active at the event's timestamp produces the already-active
error. -/
theorem reinstatement_behaviour (a : AccountUpdate) (u : UpdateUser) (e : Date)
    (pi0 : String) (pw0 : Bool)
    (hend : u.end_date = some e)
    (hpis : ∀ s, a.pi_name = some s → s.isEmpty = false)
    (hpi : u.get_pi_name e = some pi0)
    (hpw : u.is_power_user e = some pw0)
    (hmail : u.email = a.email) :
    (u.is_active a.timestamp = false →
      (a.pi_name.getD pi0).isEmpty = false →
      a.reinstate_user u =
        Except.ok { u with
          start_date := a.timestamp
          end_date := (match a.end_date with
                       | some d => some d
                       | none => some e)
          updates := [⟨a.timestamp, some (a.power_user.getD pw0),
            some (a.pi_name.getD pi0)⟩] } ∧
      a.handle [u] =
        Except.ok [u, { u with
          start_date := a.timestamp
          end_date := (match a.end_date with
                       | some d => some d
                       | none => some e)
          updates := [⟨a.timestamp, some (a.power_user.getD pw0),
            some (a.pi_name.getD pi0)⟩] }]) ∧
    (u.is_active a.timestamp = false →
      (a.pi_name.getD pi0).isEmpty = true →
      a.reinstate_user u = Except.error UserFoldError.invalidUser) ∧
    (u.is_active a.timestamp = true →
      a.reinstate_user u = Except.error UserFoldError.alreadyActive) := by
  have hpiVal : (match a.pi_name with
      | some s => if s.isEmpty then inheritedPiName u else Except.ok s
      | none => inheritedPiName u) = Except.ok (a.pi_name.getD pi0) := by
    cases hap : a.pi_name with
    | none =>
      simp only [Option.getD_none]
      unfold inheritedPiName
      rw [hend]
      show (match u.get_pi_name e with
            | some p => Except.ok p
            | none => Except.error UserFoldError.lookupFailed) = Except.ok pi0
      rw [hpi]
    | some s =>
      simp only [Option.getD_some]
      rw [hpis s hap]
      simp
  have hpwVal : (match a.power_user with
      | some b => Except.ok b
      | none => inheritedPowerUser u) = Except.ok (a.power_user.getD pw0) := by
    cases hap : a.power_user with
    | none =>
      simp only [Option.getD_none]
      unfold inheritedPowerUser
      rw [hend]
      show (match u.is_power_user e with
            | some b => Except.ok b
            | none => Except.error UserFoldError.lookupFailed) = Except.ok pw0
      rw [hpw]
    | some b => simp
  have hreinstOk : u.is_active a.timestamp = false →
      (a.pi_name.getD pi0).isEmpty = false →
      a.reinstate_user u =
        Except.ok { u with
          start_date := a.timestamp
          end_date := (match a.end_date with
                       | some d => some d
                       | none => some e)
          updates := [⟨a.timestamp, some (a.power_user.getD pw0),
            some (a.pi_name.getD pi0)⟩] } := by
    intro hinact hne
    unfold AccountUpdate.reinstate_user
    rw [hinact]
    simp only [Bool.false_eq_true, if_false]
    rw [hpiVal, hpwVal]
    show (match mkUpdateUser u.name u.email a.timestamp
        (match a.end_date with
         | some d => some d
         | none => u.end_date)
        [⟨a.timestamp, some (a.power_user.getD pw0),
          some (a.pi_name.getD pi0)⟩] with
      | Except.ok u2 => Except.ok u2
      | Except.error _ => Except.error UserFoldError.invalidUser) = _
    rw [mkUpdateUser_singleton_ok _ _ _ _ _ _ _ hne]
    cases a.end_date with
    | none => rw [hend]
    | some d => rfl
  refine ⟨fun hinact hne => ⟨hreinstOk hinact hne, ?_⟩,
    fun hinact hemp => ?_, fun hact => ?_⟩
  · unfold AccountUpdate.handle
    have hfil : ([u].filter (fun v => v.email == a.email)) = [u] := by
      simp [List.filter, hmail]
    rw [hfil]
    show (if u.is_active a.timestamp = true then
        Except.ok ((List.filter (fun v => decide (v ≠ u)) [u]) ++ [a.update_user u])
      else
        match a.reinstate_user u with
        | Except.error err => Except.error err
        | Except.ok reinstated => Except.ok ([u] ++ [reinstated])) = _
    rw [hinact]
    simp only [Bool.false_eq_true, if_false]
    rw [hreinstOk hinact hne]
    rfl
  · unfold AccountUpdate.reinstate_user
    rw [hinact]
    simp only [Bool.false_eq_true, if_false]
    rw [hpiVal, hpwVal]
    show (match mkUpdateUser u.name u.email a.timestamp
        (match a.end_date with
         | some d => some d
         | none => u.end_date)
        [⟨a.timestamp, some (a.power_user.getD pw0),
          some (a.pi_name.getD pi0)⟩] with
      | Except.ok u2 => Except.ok u2
      | Except.error _ => Except.error UserFoldError.invalidUser) = _
    rw [mkUpdateUser_singleton_invalid _ _ _ _ _ _ _ hemp]
  · unfold AccountUpdate.reinstate_user
    rw [hact]
    simp

/-- Witness for the C6 theorem: `c6Update` reinstates `c6User` (inactive at
the event's timestamp, with the truthy inherited PI name), producing the
new term and appending it in `handle`. -/
theorem reinstatement_behaviour_witness :
    c6User.is_active ⟨2021, 1, 1⟩ = false ∧
      (c6Update.reinstate_user c6User =
        Except.ok ⟨"User", "user@uni.ca", ⟨2021, 1, 1⟩, some ⟨2020, 6, 1⟩,
          [⟨⟨2021, 1, 1⟩, some false, some "PI"⟩]⟩ ∧
      c6Update.handle [c6User] =
        Except.ok [c6User,
          ⟨"User", "user@uni.ca", ⟨2021, 1, 1⟩, some ⟨2020, 6, 1⟩,
            [⟨⟨2021, 1, 1⟩, some false, some "PI"⟩]⟩]) :=
  ⟨by decide,
    (reinstatement_behaviour c6Update c6User ⟨2020, 6, 1⟩ "PI" false rfl
      (fun s hs => by cases hs) (by decide) (by decide) rfl).1
      (by decide) (by decide)⟩

/-- Date comparison is transitive. -/
theorem Date.ble_trans {a b c : Date} (h1 : Date.ble a b = true)
    (h2 : Date.ble b c = true) : Date.ble a c = true := by
  simp only [Date.ble, Bool.or_eq_true, Bool.and_eq_true, decide_eq_true_eq,
    beq_iff_eq] at h1 h2 ⊢
  omega

/-- A nonempty list has a `foldMax`, and it is one of its members. -/
theorem foldMax_of_ne_nil (lt : α → α → Bool) (l : List α) (h : l ≠ []) :
    ∃ x, foldMax lt l = some x ∧ x ∈ l := by
  cases l with
  | nil => exact absurd rfl h
  | cons y rest => exact ⟨_, rfl, foldMax_mem _ _ _ rfl⟩

/-- A user is anchored when its update set contains an update dated at or
before its start date setting the power-user flag, and one setting the PI
name. -/
def has_anchor (u : UpdateUser) : Prop :=
  (∃ upd ∈ u.updates, upd.power_user.isSome = true ∧
    Date.ble upd.date u.start_date = true) ∧
  (∃ upd ∈ u.updates, upd.pi_name.isSome = true ∧
    Date.ble upd.date u.start_date = true)

/-- Users created by a creation event are anchored. -/
theorem has_anchor_create_user (r : AccountRequest) : has_anchor r.create_user :=
  ⟨⟨⟨r.timestamp, some r.power_user, some r.pi_name⟩, List.mem_singleton.mpr rfl,
    rfl, Date.ble_refl _⟩,
   ⟨⟨r.timestamp, some r.power_user, some r.pi_name⟩, List.mem_singleton.mpr rfl,
    rfl, Date.ble_refl _⟩⟩

/-- A repeated creation event preserves anchoring: the start date is kept
and the update set only grows. -/
theorem has_anchor_request_update (r : AccountRequest) (u : UpdateUser)
    (h : has_anchor u) : has_anchor (r.update_user u) := by
  rcases h with ⟨⟨upd1, h1, hp1, hd1⟩, ⟨upd2, h2, hp2, hd2⟩⟩
  exact ⟨⟨upd1, List.mem_append_left _ h1, hp1, hd1⟩,
    ⟨upd2, List.mem_append_left _ h2, hp2, hd2⟩⟩

/-- An in-place account update preserves anchoring. -/
theorem has_anchor_account_update (a : AccountUpdate) (u : UpdateUser)
    (h : has_anchor u) : has_anchor (a.update_user u) := by
  rcases h with ⟨⟨upd1, h1, hp1, hd1⟩, ⟨upd2, h2, hp2, hd2⟩⟩
  exact ⟨⟨upd1, List.mem_append_left _ h1, hp1, hd1⟩,
    ⟨upd2, List.mem_append_left _ h2, hp2, hd2⟩⟩

/-- A successfully reinstated user is anchored: its update set is the
single update dated at the new start date, setting both attributes. -/
theorem has_anchor_reinstate_user (a : AccountUpdate) (u u2 : UpdateUser)
    (h : a.reinstate_user u = Except.ok u2) : has_anchor u2 := by
  unfold AccountUpdate.reinstate_user at h
  by_cases hact : u.is_active a.timestamp = true
  · rw [if_pos hact] at h
    exact absurd h (by simp)
  · rw [if_neg hact] at h
    cases hpi : (match a.pi_name with
        | some s => if s.isEmpty then inheritedPiName u else Except.ok s
        | none => inheritedPiName u) with
    | error err =>
      rw [hpi] at h
      cases hpw : (match a.power_user with
          | some b => Except.ok b
          | none => inheritedPowerUser u) with
      | error err2 => rw [hpw] at h; exact absurd h (by simp)
      | ok pw => rw [hpw] at h; exact absurd h (by simp)
    | ok pi =>
      rw [hpi] at h
      cases hpw : (match a.power_user with
          | some b => Except.ok b
          | none => inheritedPowerUser u) with
      | error err2 => rw [hpw] at h; exact absurd h (by simp)
      | ok pw =>
        rw [hpw] at h
        have h2 : (match mkUpdateUser u.name u.email a.timestamp
            (match a.end_date with
             | some d => some d
             | none => u.end_date)
            [⟨a.timestamp, some pw, some pi⟩] with
          | Except.ok u3 => Except.ok u3
          | Except.error _ => Except.error UserFoldError.invalidUser) =
            Except.ok u2 := h
        cases hmk : mkUpdateUser u.name u.email a.timestamp
            (match a.end_date with
             | some d => some d
             | none => u.end_date)
            [⟨a.timestamp, some pw, some pi⟩] with
        | error err3 =>
          rw [hmk] at h2
          exact absurd h2 (by simp)
        | ok u3 =>
          rw [hmk] at h2
          simp only [Except.ok.injEq] at h2
          subst h2
          rw [mkUpdateUser_ok _ _ _ _ _ _ hmk]
          exact ⟨⟨⟨a.timestamp, some pw, some pi⟩, List.mem_singleton.mpr rfl,
              rfl, Date.ble_refl _⟩,
            ⟨⟨a.timestamp, some pw, some pi⟩, List.mem_singleton.mpr rfl,
              rfl, Date.ble_refl _⟩⟩

/-- Handling a creation event preserves anchoring of all users. -/
theorem request_handle_anchors (r : AccountRequest) (users : List UpdateUser)
    (h : ∀ u ∈ users, has_anchor u) : ∀ u ∈ r.handle users, has_anchor u := by
  intro u hu
  unfold AccountRequest.handle at hu
  cases hsel : latestByStart (users.filter (fun v => v.email == r.email)) with
  | none =>
    rw [hsel] at hu
    rcases List.mem_append.mp hu with h2 | h2
    · exact h u h2
    · rw [List.mem_singleton.mp h2]
      exact has_anchor_create_user r
  | some to_update =>
    rw [hsel] at hu
    rcases List.mem_append.mp hu with h2 | h2
    · exact h u (List.mem_filter.mp h2).1
    · rw [List.mem_singleton.mp h2]
      have hmem : to_update ∈ users :=
        (List.mem_filter.mp (foldMax_mem _ _ _ hsel)).1
      exact has_anchor_request_update r to_update (h to_update hmem)

/-- Handling an update event preserves anchoring of all users when it
succeeds. -/
theorem update_handle_anchors (a : AccountUpdate) (users users2 : List UpdateUser)
    (h : ∀ u ∈ users, has_anchor u) (hok : a.handle users = Except.ok users2) :
    ∀ u ∈ users2, has_anchor u := by
  intro u hu
  unfold AccountUpdate.handle at hok
  cases hsel : latestByStart (users.filter (fun v => v.email == a.email)) with
  | none =>
    simp only [hsel] at hok
    exact absurd hok (by simp)
  | some to_update =>
    simp only [hsel] at hok
    have hmem : to_update ∈ users :=
      (List.mem_filter.mp (foldMax_mem _ _ _ hsel)).1
    by_cases hact : to_update.is_active a.timestamp = true
    · rw [if_pos hact] at hok
      simp only [Except.ok.injEq] at hok
      subst hok
      rcases List.mem_append.mp hu with h2 | h2
      · exact h u (List.mem_filter.mp h2).1
      · rw [List.mem_singleton.mp h2]
        exact has_anchor_account_update a to_update (h to_update hmem)
    · rw [if_neg hact] at hok
      cases hre : a.reinstate_user to_update with
      | error err => rw [hre] at hok; exact absurd hok (by simp)
      | ok reinstated =>
        rw [hre] at hok
        simp only [Except.ok.injEq] at hok
        subst hok
        rcases List.mem_append.mp hu with h2 | h2
        · exact h u h2
        · rw [List.mem_singleton.mp h2]
          exact has_anchor_reinstate_user a to_update reinstated hre

/-- Every user in the result of the reconstruction fold is anchored,
provided the initial working set is. -/
theorem applyChanges_anchors (changes : List Change) (init users : List UpdateUser)
    (hinit : ∀ u ∈ init, has_anchor u)
    (hok : applyChanges changes init = Except.ok users) :
    ∀ u ∈ users, has_anchor u := by
  induction changes generalizing init with
  | nil =>
    simp only [applyChanges, Except.ok.injEq] at hok
    subst hok
    exact hinit
  | cons c rest ih =>
    unfold applyChanges at hok
    cases hc : c.handle init with
    | error err => rw [hc] at hok; exact absurd hok (by simp)
    | ok mid =>
      rw [hc] at hok
      cases c with
      | request r =>
        have hmid : ∀ u ∈ mid, has_anchor u := by
          have := request_handle_anchors r init hinit
          simp only [Change.handle, Except.ok.injEq] at hc
          rw [hc] at this
          exact this
        exact ih mid hmid hok
      | update a =>
        have hmid : ∀ u ∈ mid, has_anchor u :=
          update_handle_anchors a init mid hinit hc
        exact ih mid hmid hok

/-- Point-in-time attribute queries succeed on any active date of an
anchored user. -/
theorem anchored_queries_succeed (u : UpdateUser) (h : has_anchor u) (d : Date)
    (hact : u.is_active d = true) :
    (u.is_power_user d).isSome = true ∧ (u.get_pi_name d).isSome = true := by
  have hble : Date.ble u.start_date d = true := by
    have h0 := hact
    rw [UpdateUser.is_active, Bool.and_eq_true] at h0
    exact h0.1
  rcases h with ⟨⟨upd1, h1, hp1, hd1⟩, ⟨upd2, h2, hp2, hd2⟩⟩
  constructor
  · rw [UpdateUser.is_power_user, if_pos hact]
    have hf : upd1 ∈ u.updates.filter
        (fun upd => upd.power_user.isSome && Date.ble upd.date d) := by
      rw [List.mem_filter]
      exact ⟨h1, by rw [Bool.and_eq_true]; exact ⟨hp1, Date.ble_trans hd1 hble⟩⟩
    rcases foldMax_of_ne_nil (fun a b => Date.blt a.date b.date) _
        (List.ne_nil_of_mem hf) with ⟨x, hx, hxm⟩
    rw [hx]
    have h3 := (List.mem_filter.mp hxm).2
    rw [Bool.and_eq_true] at h3
    exact h3.1
  · rw [UpdateUser.get_pi_name, if_pos hact]
    have hf : upd2 ∈ u.updates.filter
        (fun upd => upd.pi_name.isSome && Date.ble upd.date d) := by
      rw [List.mem_filter]
      exact ⟨h2, by rw [Bool.and_eq_true]; exact ⟨hp2, Date.ble_trans hd2 hble⟩⟩
    rcases foldMax_of_ne_nil (fun a b => Date.blt a.date b.date) _
        (List.ne_nil_of_mem hf) with ⟨x, hx, hxm⟩
    rw [hx]
    have h3 := (List.mem_filter.mp hxm).2
    rw [Bool.and_eq_true] at h3
    exact h3.1

/-- C10: every user produced by the reconstruction fold — created, updated
in place, or reinstated — carries an update dated at or before its start
date setting the power-user flag and one setting the PI name, so
`is_power_user` and `get_pi_name` succeed on every date of the user's
active window; the same holds for the filtered output of
`enumerate_all_users`. -/
theorem reconstructed_users_anchored (changes : List Change)
    (users : List UpdateUser)
    (requests : List AccountRequest) (updates : List AccountUpdate)
    (start_date end_date : Date) (users2 : List UpdateUser)
    (hok : applyChanges changes [] = Except.ok users)
    (hok2 : enumerate_all_users requests updates start_date end_date =
      Except.ok users2) :
    (∀ u ∈ users, has_anchor u ∧
      ∀ d, u.is_active d = true →
        (u.is_power_user d).isSome = true ∧ (u.get_pi_name d).isSome = true) ∧
    (∀ u ∈ users2, has_anchor u ∧
      ∀ d, u.is_active d = true →
        (u.is_power_user d).isSome = true ∧ (u.get_pi_name d).isSome = true) := by
  have base := applyChanges_anchors changes [] users (by intro u hu; cases hu) hok
  refine ⟨fun u hu => ⟨base u hu, fun d hd =>
    anchored_queries_succeed u (base u hu) d hd⟩, ?_⟩
  unfold enumerate_all_users at hok2
  cases hfold : applyChanges (selected_changes requests updates end_date) [] with
  | error err =>
    rw [hfold] at hok2
    exact absurd hok2 (by simp)
  | ok folded =>
    rw [hfold] at hok2
    simp only [Except.ok.injEq] at hok2
    subst hok2
    have base2 := applyChanges_anchors _ [] folded (by intro u hu; cases hu) hfold
    intro u hu
    have hmem : u ∈ folded := (List.mem_filter.mp hu).1
    exact ⟨base2 u hmem, fun d hd =>
      anchored_queries_succeed u (base2 u hmem) d hd⟩

/-- Creation event used in the C10 witness. -/
def c10Request : AccountRequest :=
  ⟨⟨2020, 3, 1⟩, "Witness", "witness@uni.ca", "PI", true, none⟩

/-- Witness for the C10 theorem: folding the single creation event
`c10Request` yields its created user, which is anchored and answers both
point-in-time queries on the active date 2020-07-01. -/
theorem reconstructed_users_anchored_witness :
    has_anchor c10Request.create_user ∧
      (c10Request.create_user.is_power_user ⟨2020, 7, 1⟩).isSome = true ∧
      (c10Request.create_user.get_pi_name ⟨2020, 7, 1⟩).isSome = true := by
  have h := (reconstructed_users_anchored [Change.request c10Request]
    [c10Request.create_user] [c10Request] [] ⟨2020, 1, 1⟩ ⟨2021, 1, 1⟩
    [c10Request.create_user] (by rfl) (by rfl)).1 c10Request.create_user
    (List.mem_singleton.mpr rfl)
  exact ⟨h.1, (h.2 ⟨2020, 7, 1⟩ (by decide)).1, (h.2 ⟨2020, 7, 1⟩ (by decide)).2⟩
